import Mathlib

/-!
Shallow embedding of the dark-detector repository (Go) for specification
checking.  The embedded code comes from:

* `internal/image/processor.go` — HTTP download with retry/backoff, crop
  clamping (`cropImage`), `Process`;
* `internal/image/lux.go` — `calcLux`, `calcLuxRGBA`, `srgbToLinear`,
  `scaleLux`;
* the MQTT publisher file (`package mqtt`) — `NewPublisher`'s slug,
  `PublishLux`, `PublishDiscovery`, the Home-Assistant birth-topic
  callback, `waitForPublish`, `Disconnect`;
* `internal/config/config.go` — `getImageCrop`.

Modelling conventions: Go `int` is `ℤ`, byte values are `ℕ`, `float64`
arithmetic is modelled as exact real arithmetic over `ℝ`, fallible Go
functions returning `(T, error)` become `Except GoErr T`, and network
effects (HTTP attempts, MQTT token completion, context cancellation) are
supplied as explicit oracles (attempt-outcome functions, completion
times).  Time is measured in the spec's "time-units" (seconds).
-/

namespace DarkDetector

/-- Error values distinguished by the Go code's error construction sites
(message strings abbreviated to constructors; `fmt.Errorf("...: %w", e)`
wrapping becomes an explicit constructor around the cause). -/
inductive GoErr where
  /-- `"image has no pixels to process"` (calcLux) -/
  | noPixelsToProcess : GoErr
  /-- `"image has no pixels to crop"` (cropImage) -/
  | noPixelsToCrop : GoErr
  /-- `"invalid crop dimensions: %v"` (cropImage) -/
  | invalidCropDims : GoErr
  /-- a failed download attempt: transport error, non-200 status, or decode failure -/
  | attemptFailed : GoErr
  /-- `"failed after %d attempts: %w"` (downloadImage) -/
  | afterRetries (last : GoErr) : GoErr
  /-- `"failed to crop image: %w"` (downloadImage) -/
  | cropFailed (cause : GoErr) : GoErr
  /-- `"error downloading image: %w"` (Process) -/
  | processDownload (cause : GoErr) : GoErr
  /-- `"error processing image: %w"` (Process) -/
  | processCalc (cause : GoErr) : GoErr
  /-- `"error parsing IMAGE_CROP value: %v"` (getImageCrop) -/
  | cropParse : GoErr
  /-- `"publish cancelled: %w"` (waitForPublish, ctx.Done branch) -/
  | publishCancelled : GoErr
  /-- `"mqtt publish timeout after 10s"` (waitForPublish, timer branch) -/
  | publishTimedOut : GoErr
  /-- `"mqtt publish error: %w"` (waitForPublish, token error) -/
  | publishTokenErr : GoErr
  /-- `"failed to publish state: %w"` (PublishLux) -/
  | statePublishFailed (cause : GoErr) : GoErr
  /-- `"failed to publish discovery config: %w"` (PublishDiscovery) -/
  | discoveryPublishFailed (cause : GoErr) : GoErr
deriving DecidableEq, Repr

/-- `Except.isOk` as used throughout: `true` exactly on `.ok`. -/
def exOk {ε α : Type} : Except ε α → Bool
  | .ok _ => true
  | .error _ => false

/-- Decidable equality of `Except` results, for evaluating concrete
runs. -/
instance {ε α : Type} [DecidableEq ε] [DecidableEq α] : DecidableEq (Except ε α) := fun a b =>
  match a, b with
  | .ok x, .ok y =>
    if h : x = y then .isTrue (by rw [h]) else .isFalse (by simp [h])
  | .error x, .error y =>
    if h : x = y then .isTrue (by rw [h]) else .isFalse (by simp [h])
  | .ok _, .error _ => .isFalse (by simp)
  | .error _, .ok _ => .isFalse (by simp)

/-! ## Go `image.Rectangle` (package image, standard library semantics) -/

/-- Go `image.Rectangle` with `Min = (minX, minY)`, `Max = (maxX, maxY)`. -/
structure Rectangle where
  minX : ℤ
  minY : ℤ
  maxX : ℤ
  maxY : ℤ
deriving DecidableEq, Repr

/-- Go `r.Empty()`: `r.Min.X >= r.Max.X || r.Min.Y >= r.Max.Y`. -/
def Rectangle.emptyB (r : Rectangle) : Bool :=
  decide (r.maxX ≤ r.minX) || decide (r.maxY ≤ r.minY)

/-- Go `r.Dx()`. -/
def Rectangle.dx (r : Rectangle) : ℤ := r.maxX - r.minX

/-- Go `r.Dy()`. -/
def Rectangle.dy (r : Rectangle) : ℤ := r.maxY - r.minY

/-- Go `r.In(s)`: an empty rectangle is in every rectangle. -/
def Rectangle.inB (r s : Rectangle) : Bool :=
  r.emptyB ||
    (decide (s.minX ≤ r.minX) && decide (r.maxX ≤ s.maxX) &&
     decide (s.minY ≤ r.minY) && decide (r.maxY ≤ s.maxY))

/-- Go `r.Overlaps(s)`: both non-empty and strictly intersecting. -/
def Rectangle.overlapsB (r s : Rectangle) : Bool :=
  !r.emptyB && !s.emptyB &&
    decide (r.minX < s.maxX) && decide (s.minX < r.maxX) &&
    decide (r.minY < s.maxY) && decide (s.minY < r.maxY)

/-- Go `image.Rect(x0, y0, x1, y1)`: swaps coordinates per axis so the
result is well-formed, which is exactly taking min/max per axis. -/
def goRect (x0 y0 x1 y1 : ℤ) : Rectangle :=
  ⟨min x0 x1, min y0 y1, max x0 x1, max y0 y1⟩

/-- Go `r.Intersect(s)`: clip per axis, and return the zero rectangle
`image.ZR` when the clipped rectangle is empty. -/
def Rectangle.intersect (r s : Rectangle) : Rectangle :=
  if (Rectangle.mk (max r.minX s.minX) (max r.minY s.minY)
      (min r.maxX s.maxX) (min r.maxY s.maxY)).emptyB then ⟨0, 0, 0, 0⟩
  else ⟨max r.minX s.minX, max r.minY s.minY, min r.maxX s.maxX, min r.maxY s.maxY⟩

/-! ## Images

A Go `image.Image` is its bounds plus its `At` accessor; `At(x, y).RGBA()`
yields alpha-premultiplied 16-bit channel samples in `0 .. 65535`. -/

/-- The four 16-bit channel samples produced by `Color.RGBA()`. -/
structure Pixel where
  r : ℕ
  g : ℕ
  b : ℕ
  a : ℕ
deriving DecidableEq, Repr

/-- A Go `image.Image`: `Bounds()` and `At` (already composed with
`Color.RGBA()`, so `atPix x y` gives the 16-bit samples; `at` is a
reserved word in Lean). -/
structure GoImage where
  bounds : Rectangle
  atPix : ℤ → ℤ → Pixel

/-! ## `cropImage` (internal/image/processor.go) -/

/-- `cropWidth` constant of processor.go. -/
def cropWidth : ℤ := 100

/-- `cropHeight` constant of processor.go. -/
def cropHeight : ℤ := 100

/-- The rectangle arithmetic of `cropImage` after the validity checks:
`x1 := max(crop[0], b.Min.X)`, `y1 := max(crop[1], b.Min.Y)`,
`x2 := min(x1+width, b.Max.X)`, `y2 := min(y1+height, b.Max.Y)`, then
`SubImage(image.Rect(x1, y1, x2, y2))`, whose bounds are
`Rect(...).Intersect(b)` (Go's `SubImage` intersects the request with the
image bounds and returns an image with zero bounds when that is empty). -/
def clampCrop (b : Rectangle) (x y w h : ℤ) : Rectangle :=
  let x1 := max x b.minX
  let y1 := max y b.minY
  let x2 := min (x1 + w) b.maxX
  let y2 := min (y1 + h) b.maxY
  (goRect x1 y1 x2 y2).intersect b

/-- `cropImage`, reduced to the bounds of the produced sub-image.  The Go
function checks, in order: nil image (unrepresentable here), empty image
bounds, crop-list length (`nil` slices have length 0 and fail the length
check the same way), then clamps.  A 2-element crop uses the
`cropWidth`/`cropHeight` defaults. -/
def cropRect (b : Rectangle) (imageCrop : List ℤ) : Except GoErr Rectangle :=
  if b.emptyB then .error .noPixelsToCrop
  else
    match imageCrop with
    | [x, y] => .ok (clampCrop b x y cropWidth cropHeight)
    | [x, y, w, h] => .ok (clampCrop b x y w h)
    | _ => .error .invalidCropDims

/-- `cropImage` on whole images: `SubImage` shares the pixel accessor and
replaces the bounds. -/
def cropImage (img : GoImage) (imageCrop : List ℤ) : Except GoErr GoImage :=
  (cropRect img.bounds imageCrop).map fun r => { bounds := r, atPix := img.atPix }

/-! ## `downloadImage` retry loop (internal/image/processor.go)

The network is an oracle `outcomes : ℕ → Option GoImage`: attempt `i`
either fails retryably (transport error / non-200 status / decode
failure — all of which set `lastErr` and `continue`) or yields a decoded
image.  Request construction never fails for a fixed valid URL and the
caller's context is never cancelled in the scenarios the claims quantify
over.  The second component of the result is the total backoff slept, in
seconds: before attempt `attempt > 0` the code sleeps
`time.Duration(1<<attempt) * time.Second`. -/

/-- `maxRetries` local of `downloadImage`. -/
def maxRetries : ℕ := 3

/-- One unrolling state of the `for attempt := 0; attempt < maxRetries`
loop: `attempt` is the current index, `fuel` the remaining iterations
(`maxRetries - attempt`), `waited` the backoff slept so far. -/
def downloadFrom (outcomes : ℕ → Option GoImage) (crop : Option (List ℤ)) :
    ℕ → ℕ → ℕ → Except GoErr GoImage × ℕ
  | _, 0, waited => (.error (.afterRetries .attemptFailed), waited)
  | attempt, fuel + 1, waited =>
    let waited := if attempt > 0 then waited + 2 ^ attempt else waited
    match outcomes attempt with
    | none => downloadFrom outcomes crop (attempt + 1) fuel waited
    | some img =>
      match crop with
      | none => (.ok img, waited)
      | some c =>
        match cropImage img c with
        | .error e => (.error (.cropFailed e), waited)
        | .ok cropped => (.ok cropped, waited)

/-- `downloadImage`: run the loop from attempt 0 with `maxRetries` fuel. -/
def downloadImage (outcomes : ℕ → Option GoImage) (crop : Option (List ℤ)) :
    Except GoErr GoImage × ℕ :=
  downloadFrom outcomes crop 0 maxRetries 0

/-! ## `getImageCrop` (internal/config/config.go)

Splits `IMAGE_CROP` on commas and parses each trimmed piece with
`strconv.Atoi`.  The raw value is modelled as a character list so the
splitting and parsing are structurally recursive. -/

/-- `strings.Split(value, ",")`: split at every comma (a trailing comma
yields a final empty piece, as in Go). -/
def splitOnComma : List Char → List (List Char)
  | [] => [[]]
  | c :: rest =>
    match splitOnComma rest with
    | [] => [[c]]
    | piece :: more =>
      if c = ',' then [] :: piece :: more else (c :: piece) :: more

/-- `strings.TrimSpace` (on the space character, the only whitespace
appearing in these values). -/
def trimSpaces (s : List Char) : List Char :=
  ((s.dropWhile (· = ' ')).reverse.dropWhile (· = ' ')).reverse

/-- A decimal digit's value. -/
def digitVal (c : Char) : Option ℕ :=
  if '0' ≤ c ∧ c ≤ '9' then some (c.toNat - 48) else none

/-- An unsigned decimal number: every character a digit, at least one. -/
def parseDigits : List Char → Option ℕ
  | [] => none
  | ds =>
    ds.foldl
      (fun acc c =>
        match acc, digitVal c with
        | some n, some d => some (n * 10 + d)
        | _, _ => none)
      (some 0)

/-- `strconv.Atoi`: an optional sign followed by decimal digits. -/
def goAtoi : List Char → Option ℤ
  | '-' :: ds => (parseDigits ds).map fun n => -(n : ℤ)
  | '+' :: ds => (parseDigits ds).map fun n => (n : ℤ)
  | ds => (parseDigits ds).map fun n => (n : ℤ)

/-- `getImageCrop` applied to the raw `IMAGE_CROP` value: empty means no
crop; otherwise split on commas and parse every trimmed piece, failing on
the first piece that is not an integer. -/
def getImageCrop (value : List Char) : Except GoErr (Option (List ℤ)) :=
  if value = [] then .ok none
  else
    match (splitOnComma value).mapM (fun v => goAtoi (trimSpaces v)) with
    | none => .error .cropParse
    | some crop => .ok (some crop)

/-- The `IMAGE_CROP` value `"1,2,3"`. -/
def cropValue123 : List Char := ['1', ',', '2', ',', '3']

/-! ## The publisher's slug (NewPublisher, package mqtt)

`uniqueId := strings.ToLower(strings.ReplaceAll(entityName, " ", "_"))`.
Strings are modelled as lists of rune codepoints (`ℕ`); `ReplaceAll` with
the single-rune pattern `" "` is a per-rune map, and `strings.ToLower` is
per-rune `unicode.ToLower`, modelled here on the ASCII letters it acts on
in this repository's names (codepoints 65–90 map to 97–122). -/

/-- Per-rune lower-casing (ASCII fragment of `unicode.ToLower`). -/
def lowerRune (c : ℕ) : ℕ := if 65 ≤ c ∧ c ≤ 90 then c + 32 else c

/-- `strings.ReplaceAll(s, " ", "_")` per rune: space (32) becomes `_` (95). -/
def replaceSpace (c : ℕ) : ℕ := if c = 32 then 95 else c

/-- The slug computed by `NewPublisher` for `uniqueId` (and hence for topic
names): replace spaces by underscores, then lower-case. -/
def slug (s : List ℕ) : List ℕ := (s.map replaceSpace).map lowerRune

/-- `"Light Sensor"` as rune codepoints. -/
def lightSensorRunes : List ℕ := [76, 105, 103, 104, 116, 32, 83, 101, 110, 115, 111, 114]

/-- `"light_sensor"` as rune codepoints. -/
def lightSensorSlug : List ℕ := [108, 105, 103, 104, 116, 95, 115, 101, 110, 115, 111, 114]

/-! ## Publisher state machine (package mqtt)

The only mutable publisher state the claims touch is
`needToPublishDiscovery` together with the construction-time
`autoDiscoveryEnabled`.  The result of each `waitForPublish` call is
supplied as an oracle `Except GoErr Unit` (`.ok` = delivered within the
timeout, `.error` = timeout / cancellation / transport error). -/

/-- The publisher fields that change or gate the discovery protocol.
`NewPublisher` sets `needToPublishDiscovery := true`. -/
structure PubState where
  needToPublishDiscovery : Bool
  autoDiscoveryEnabled : Bool
deriving DecidableEq, Repr

/-- The publisher state built by `NewPublisher` for a configuration with
the given auto-discovery flag. -/
def initPubState (enabled : Bool) : PubState :=
  { needToPublishDiscovery := true, autoDiscoveryEnabled := enabled }

/-- A message handed to `client.Publish` by the publish path. -/
inductive PubMsg where
  /-- the state-topic publish of `PublishLux` (payload `strconv.Itoa(lux)`,
  QoS 1, not retained) -/
  | stateMsg (payload : String) : PubMsg
  /-- the discovery-config publish of `PublishDiscovery` (QoS 1, retained) -/
  | discoveryMsg : PubMsg
deriving DecidableEq, Repr

/-- Is this the state-topic message? -/
def PubMsg.isState : PubMsg → Bool
  | .stateMsg _ => true
  | .discoveryMsg => false

/-- Is this the discovery-config message? -/
def PubMsg.isDiscovery : PubMsg → Bool
  | .stateMsg _ => false
  | .discoveryMsg => true

/-- `PublishDiscovery`: returns nil immediately unless auto-discovery is
enabled and discovery is pending; otherwise marshals the discovery
document (which never fails for this fixed payload shape), publishes it,
and only on successful delivery clears `needToPublishDiscovery`.
Result: new state, messages handed to `client.Publish`, returned error. -/
def publishDiscoveryGo (s : PubState) (res : Except GoErr Unit) :
    PubState × List PubMsg × Option GoErr :=
  if !s.autoDiscoveryEnabled || !s.needToPublishDiscovery then (s, [], none)
  else
    match res with
    | .error e => (s, [.discoveryMsg], some (.discoveryPublishFailed e))
    | .ok _ => ({ s with needToPublishDiscovery := false }, [.discoveryMsg], none)

/-- `PublishLux`: publish `strconv.Itoa(lux)` to the state topic; if that
delivery fails, return the error; otherwise run `PublishDiscovery`.
`stateRes`/`discRes` are the oracle results of the two possible
`waitForPublish` calls. -/
def publishLuxGo (s : PubState) (lux : ℤ) (stateRes discRes : Except GoErr Unit) :
    PubState × List PubMsg × Option GoErr :=
  match stateRes with
  | .error e => (s, [.stateMsg (toString lux)], some (.statePublishFailed e))
  | .ok _ =>
    let (s', msgs, err) := publishDiscoveryGo s discRes
    (s', .stateMsg (toString lux) :: msgs, err)

/-- The birth-topic subscription callback installed by
`SubscribeHomeAssistantStatus`: only the payload `"online"` sets
`needToPublishDiscovery` back to true. -/
def onBirth (s : PubState) (payload : String) : PubState :=
  if payload = "online" then { s with needToPublishDiscovery := true } else s

/-- Externally visible events interleaving on the publisher. -/
inductive PubEvent where
  /-- a `PublishLux(ctx, lux)` call with the delivery oracle for its two
  possible publishes -/
  | lux (lux : ℤ) (stateRes discRes : Except GoErr Unit) : PubEvent
  /-- a message arriving on the Home-Assistant birth topic -/
  | birth (payload : String) : PubEvent

/-- Run a sequence of events against the publisher, collecting every
message handed to `client.Publish`. -/
def runPub : PubState → List PubEvent → PubState × List PubMsg
  | s, [] => (s, [])
  | s, .lux v r₁ r₂ :: rest =>
    let step := publishLuxGo s v r₁ r₂
    let next := runPub step.1 rest
    (next.1, step.2.1 ++ next.2)
  | s, .birth p :: rest => runPub (onBirth s p) rest

/-! ## `waitForPublish` and `Disconnect` timing (package mqtt)

MQTT tokens and the context are modelled by their completion times:
`Option ℕ` with `none` = never fires.  `waitForPublish` selects whichever
of cancellation, the fixed 10-second timer, and token completion fires
first (Go breaks exact ties randomly; the model breaks them in the order
the events are listed in the `select`, which no claim depends on). -/

/-- `publishTimeout = 10 * time.Second` (and `connectionTimeout` has the
same value). -/
def publishTimeout : ℕ := 10

/-- An MQTT token: when (if ever) it completes, and `token.Error()`. -/
structure Token where
  doneAt : Option ℕ
  tokErr : Option GoErr
deriving DecidableEq, Repr

/-- An event time with `none` = never, as an extended natural. -/
def evTime : Option ℕ → ℕ∞
  | none => ⊤
  | some t => (t : ℕ∞)

/-- `waitForPublish(ctx, token)`: result and the time at which the
`select` fires (always finite, because the timer always fires at 10). -/
def waitForPublish (ctxDoneAt : Option ℕ) (tok : Token) : Except GoErr Unit × ℕ :=
  if evTime ctxDoneAt ≤ min (publishTimeout : ℕ∞) (evTime tok.doneAt) then
    (.error .publishCancelled, ctxDoneAt.getD 0)
  else if (publishTimeout : ℕ∞) ≤ evTime tok.doneAt then
    (.error .publishTimedOut, publishTimeout)
  else
    (match tok.tokErr with
     | some _ => .error .publishTokenErr
     | none => .ok (), tok.doneAt.getD 0)

/-- What a `Disconnect()` call does, as observable effects. -/
structure DisconnectRun where
  /-- topic of the manual offline publish -/
  publishTopic : String
  /-- payload of the manual offline publish -/
  publishPayload : String
  /-- retained flag of the manual offline publish -/
  publishRetained : Bool
  /-- when the bare `token.Wait()` returns (`⊤` = blocks forever) -/
  waitedUntil : ℕ∞
  /-- whether `client.Disconnect(250)` is ever reached -/
  disconnectCalled : Bool

/-- `Disconnect()`: publish `"offline"` retained to the availability
topic, block on `token.Wait()` (no timer, no context), then call
`client.Disconnect(250)` — reached only if the token ever completes. -/
def goDisconnect (availabilityTopic : String) (tok : Token) : DisconnectRun :=
  { publishTopic := availabilityTopic
    publishPayload := "offline"
    publishRetained := true
    waitedUntil := evTime tok.doneAt
    disconnectCalled := tok.doneAt.isSome }

/-! ## Luminance calculation (internal/image/lux.go)

`float64` arithmetic is modelled as exact real arithmetic; `math.Pow` on
the non-negative bases appearing here is `Real.rpow`.  Go's
float64-to-int conversion truncates toward zero. -/

noncomputable section Lux

/-- `luxScale = 9500`. -/
def luxScale : ℝ := 9500

/-- `srgbThreshold = 0.04045`. -/
def srgbThreshold : ℝ := 0.04045

/-- `srgbLinearScale = 12.92`. -/
def srgbLinearScale : ℝ := 12.92

/-- `srgbExpScale = 1.055`. -/
def srgbExpScale : ℝ := 1.055

/-- `srgbExpOffset = 0.055`. -/
def srgbExpOffset : ℝ := 0.055

/-- `srgbGamma = 2.4`. -/
def srgbGamma : ℝ := 2.4

/-- `scale = 65535.0` (16-bit channel normalization). -/
def scale : ℝ := 65535

/-- `rWeight = 0.2126`. -/
def rWeight : ℝ := 0.2126

/-- `gWeight = 0.7152`. -/
def gWeight : ℝ := 0.7152

/-- `bWeight = 0.0722`. -/
def bWeight : ℝ := 0.0722

/-- `srgbToLinear`: the piecewise sRGB inverse transform. -/
def srgbToLinear (c : ℝ) : ℝ :=
  if c ≤ srgbThreshold then c / srgbLinearScale
  else ((c + srgbExpOffset) / srgbExpScale) ^ srgbGamma

/-- Go `int(x)` on a `float64`: truncation toward zero. -/
def goInt (x : ℝ) : ℤ := if 0 ≤ x then ⌊x⌋ else ⌈x⌉

/-- `scaleLux`: guard against zero pixels, average, scale by `luxScale`,
truncate to int. -/
def scaleLux (totalBrightness : ℝ) (pixels : ℤ) : ℤ :=
  if pixels = 0 then 0 else goInt (totalBrightness / (pixels : ℝ) * luxScale)

/-- The BT.709 weighted sum of one pixel's linearized 16-bit samples, as
in the generic loop body of `calcLux`. -/
def pixelBrightness (p : Pixel) : ℝ :=
  srgbToLinear ((p.r : ℝ) / scale) * rWeight +
    srgbToLinear ((p.g : ℝ) / scale) * gWeight +
    srgbToLinear ((p.b : ℝ) / scale) * bWeight

/-- `totalBrightness` accumulated by the generic double loop of `calcLux`:
`for y := 0; y < height; y++ { for x := 0; x < width; x++ {
img.At(x+bounds.Min.X, y+bounds.Min.Y) ... } }`. -/
def luxSum (img : GoImage) : ℝ :=
  ∑ y ∈ Finset.range img.bounds.dy.toNat, ∑ x ∈ Finset.range img.bounds.dx.toNat,
    pixelBrightness (img.atPix ((x : ℤ) + img.bounds.minX) ((y : ℤ) + img.bounds.minY))

/-- `calcLux`, generic path: empty-bounds check, then average-and-scale.
(The Go function first type-switches to `calcLuxRGBA` for `*image.RGBA`
values; that optimized path is `calcLuxRGBA` below, compared against this
generic path by the refinement claim.) -/
def calcLux (img : GoImage) : Except GoErr ℤ :=
  if img.bounds.emptyB then .error .noPixelsToProcess
  else .ok (scaleLux (luxSum img) (img.bounds.dx * img.bounds.dy))

/-- A Go `*image.RGBA`: bounds, `Stride`, and the `Pix` byte array
(`pix` indexed by byte offset; values are bytes, `< 256`, but nothing
below needs that bound). -/
structure RGBAImage where
  rect : Rectangle
  stride : ℤ
  pix : ℤ → ℕ

/-- The `image.Image` view of an `*image.RGBA`: `At(x, y)` bounds-checks
the point against `Rect` (returning the zero color outside) and reads
`Pix[(y-Rect.Min.Y)*Stride + (x-Rect.Min.X)*4 ...]`; `color.RGBA.RGBA()`
expands each 8-bit channel `v` to the 16-bit sample `v * 0x101`. -/
def RGBAImage.toGoImage (img : RGBAImage) : GoImage :=
  { bounds := img.rect
    atPix := fun x y =>
      if img.rect.minX ≤ x ∧ x < img.rect.maxX ∧ img.rect.minY ≤ y ∧ y < img.rect.maxY then
        let i := (y - img.rect.minY) * img.stride + (x - img.rect.minX) * 4
        ⟨img.pix i * 257, img.pix (i + 1) * 257, img.pix (i + 2) * 257, img.pix (i + 3) * 257⟩
      else ⟨0, 0, 0, 0⟩ }

/-- The 256-entry lookup table of `calcLuxRGBA`:
`srgbToLinearLUT[i] = srgbToLinear(float64(i) / 255.0)`. -/
def srgbToLinearLUT (i : ℕ) : ℝ := srgbToLinear ((i : ℝ) / 255)

/-- `calcLuxRGBA(img, width, height)`: the optimized path — per row
`offset := y * img.Stride`, per pixel `i := offset + x*4`, three lookups
in the table, BT.709 weighted sum, then the same `scaleLux`. -/
def calcLuxRGBA (img : RGBAImage) (width height : ℤ) : Except GoErr ℤ :=
  .ok (scaleLux
    (∑ y ∈ Finset.range height.toNat, ∑ x ∈ Finset.range width.toNat,
      (srgbToLinearLUT (img.pix ((y : ℤ) * img.stride + (x : ℤ) * 4)) * rWeight +
        srgbToLinearLUT (img.pix ((y : ℤ) * img.stride + (x : ℤ) * 4 + 1)) * gWeight +
        srgbToLinearLUT (img.pix ((y : ℤ) * img.stride + (x : ℤ) * 4 + 2)) * bWeight))
    (width * height))

/-! ## `Process` (internal/image/processor.go)

`Process` checks the context is non-nil and the URL parses (neither can
fail in the scenarios the claims quantify over: the context is a real
context and `url.Parse` accepts the configured URL), downloads with
retries and optional crop, then computes the lux value. -/

/-- `Process`, as a function of the download oracle and the configured
crop. -/
def processGo (outcomes : ℕ → Option GoImage) (crop : Option (List ℤ)) :
    Except GoErr ℤ :=
  match (downloadImage outcomes crop).1 with
  | .error e => .error (.processDownload e)
  | .ok img =>
    match calcLux img with
    | .error e => .error (.processCalc e)
    | .ok v => .ok v

end Lux

/-! ## Concrete instances used by witnesses and counterexamples -/

/-- A 1×1 image whose only pixel is black (all 16-bit samples 0). -/
def img1x1Black : GoImage :=
  { bounds := ⟨0, 0, 1, 1⟩, atPix := fun _ _ => ⟨0, 0, 0, 0⟩ }

/-- A 1×1 image whose only pixel is white (all 16-bit samples 65535). -/
def img1x1White : GoImage :=
  { bounds := ⟨0, 0, 1, 1⟩, atPix := fun _ _ => ⟨65535, 65535, 65535, 65535⟩ }

/-- An image with empty (zero) bounds. -/
def emptyImg : GoImage :=
  { bounds := ⟨0, 0, 0, 0⟩, atPix := fun _ _ => ⟨0, 0, 0, 0⟩ }

/-- Download oracle: attempts 0 and 1 fail, attempt 2 decodes the black
1×1 image. -/
def failTwiceOutcomes : ℕ → Option GoImage :=
  fun i => if i = 2 then some img1x1Black else none

/-- Download oracle: the first attempt immediately decodes the empty
image. -/
def emptyImgOutcomes : ℕ → Option GoImage := fun _ => some emptyImg

/-- The 0..200 × 0..200 image bounds of the spec's crop example. -/
def bounds200 : Rectangle := ⟨0, 0, 200, 200⟩

/-- A 200×200 image for the crop claims. -/
def img200 : GoImage := { bounds := bounds200, atPix := fun _ _ => ⟨0, 0, 0, 0⟩ }

/-- A 1×1 all-zero RGBA image (stride 4). -/
def rgba1 : RGBAImage := { rect := ⟨0, 0, 1, 1⟩, stride := 4, pix := fun _ => 0 }

/-! # Theorems -/

/-! ## Helper lemmas -/

/-- One application of the slug's per-rune transformation is a fixed
point of a second application. -/
theorem lowerRune_replaceSpace_idem (c : ℕ) :
    lowerRune (replaceSpace (lowerRune (replaceSpace c))) = lowerRune (replaceSpace c) := by
  unfold lowerRune replaceSpace
  split_ifs <;> omega

/-- `srgbToLinear 0 = 0` (the linear branch at 0). -/
theorem srgbToLinear_zero : srgbToLinear 0 = 0 := by
  unfold srgbToLinear srgbThreshold srgbLinearScale
  rw [if_pos (by norm_num)]
  norm_num

/-- `srgbToLinear 1 = 1` (the gamma branch at full scale). -/
theorem srgbToLinear_one : srgbToLinear 1 = 1 := by
  unfold srgbToLinear srgbThreshold srgbExpOffset srgbExpScale srgbGamma
  rw [if_neg (by norm_num), show ((1 : ℝ) + 0.055) / 1.055 = 1 by norm_num]
  exact Real.one_rpow _

/-- A non-empty `Rectangle` has positive width and height. -/
theorem dims_pos_of_not_empty (b : Rectangle) (h : b.emptyB = false) :
    0 < b.dx ∧ 0 < b.dy := by
  unfold Rectangle.emptyB at h
  unfold Rectangle.dx Rectangle.dy
  simp only [Bool.or_eq_false_iff, decide_eq_false_iff_not, not_le] at h
  omega

/-- `calcLux` on an image every pixel of which is black is 0. -/
theorem calcLux_of_black (img : GoImage) (hne : img.bounds.emptyB = false)
    (hblack : ∀ x y : ℤ,
      (img.atPix x y).r = 0 ∧ (img.atPix x y).g = 0 ∧ (img.atPix x y).b = 0) :
    calcLux img = .ok 0 := by
  have hsum : luxSum img = 0 := by
    unfold luxSum
    refine Finset.sum_eq_zero fun y _ => Finset.sum_eq_zero fun x _ => ?_
    have h := hblack ((x : ℤ) + img.bounds.minX) ((y : ℤ) + img.bounds.minY)
    unfold pixelBrightness
    rw [h.1, h.2.1, h.2.2]
    simp [srgbToLinear_zero]
  have hpos := dims_pos_of_not_empty img.bounds hne
  have hnz : img.bounds.dx * img.bounds.dy ≠ 0 := (mul_pos hpos.1 hpos.2).ne'
  unfold calcLux
  rw [if_neg (by simp [hne])]
  unfold scaleLux
  rw [if_neg hnz, hsum]
  unfold goInt
  norm_num

/-- `calcLux` on an image every pixel of which is white (full-scale
16-bit samples) is exactly `luxScale` truncated, i.e. 9500. -/
theorem calcLux_of_white (img : GoImage) (hne : img.bounds.emptyB = false)
    (hwhite : ∀ x y : ℤ,
      (img.atPix x y).r = 65535 ∧ (img.atPix x y).g = 65535 ∧ (img.atPix x y).b = 65535) :
    calcLux img = .ok 9500 := by
  have h1 : ∀ x y : ℤ, pixelBrightness (img.atPix x y) = 1 := by
    intro x y
    have h := hwhite x y
    unfold pixelBrightness
    rw [h.1, h.2.1, h.2.2]
    rw [show ((65535 : ℕ) : ℝ) / scale = 1 by unfold scale; norm_num, srgbToLinear_one]
    unfold rWeight gWeight bWeight
    norm_num
  have hpos := dims_pos_of_not_empty img.bounds hne
  have hsum : luxSum img = (img.bounds.dy.toNat : ℝ) * (img.bounds.dx.toNat : ℝ) := by
    unfold luxSum
    simp [h1]
  have hnz : img.bounds.dx * img.bounds.dy ≠ 0 := (mul_pos hpos.1 hpos.2).ne'
  have hx : (img.bounds.dx.toNat : ℝ) = (img.bounds.dx : ℝ) := by
    rw [show (img.bounds.dx.toNat : ℝ) = ((img.bounds.dx.toNat : ℤ) : ℝ) by push_cast; ring,
      Int.toNat_of_nonneg hpos.1.le]
  have hy : (img.bounds.dy.toNat : ℝ) = (img.bounds.dy : ℝ) := by
    rw [show (img.bounds.dy.toNat : ℝ) = ((img.bounds.dy.toNat : ℤ) : ℝ) by push_cast; ring,
      Int.toNat_of_nonneg hpos.2.le]
  have hdx : (img.bounds.dx : ℝ) ≠ 0 := Int.cast_ne_zero.mpr hpos.1.ne'
  have hdy : (img.bounds.dy : ℝ) ≠ 0 := Int.cast_ne_zero.mpr hpos.2.ne'
  unfold calcLux
  rw [if_neg (by simp [hne])]
  unfold scaleLux
  rw [if_neg hnz, hsum, hx, hy]
  have hval : (img.bounds.dy : ℝ) * (img.bounds.dx : ℝ) /
      ((img.bounds.dx * img.bounds.dy : ℤ) : ℝ) * luxScale = 9500 := by
    unfold luxScale
    push_cast
    field_simp
    ring
  rw [hval]
  unfold goInt
  rw [if_pos (by norm_num), show (9500 : ℝ) = ((9500 : ℤ) : ℝ) by norm_num, Int.floor_intCast]

/-! ## C8 — the slug -/

/-- C8: the slug computed by `NewPublisher` (replace spaces by
underscores, then lower-case) is deterministic — equal names give equal
slugs — and idempotent, and `slug "Light Sensor" = "light_sensor"`. -/
theorem slug_deterministic_idempotent :
    (∀ s t : List ℕ, s = t → slug s = slug t) ∧
    (∀ s : List ℕ, slug (slug s) = slug s) ∧
    slug lightSensorRunes = lightSensorSlug := by
  refine ⟨fun s t h => by rw [h], fun s => ?_, by decide⟩
  unfold slug
  simp only [List.map_map]
  exact List.map_congr_left fun c _ => lowerRune_replaceSpace_idem c

/-- C8 witness: determinism applied at the configured default name. -/
theorem slug_deterministic_idempotent_witness :
    lightSensorRunes = lightSensorRunes ∧ slug lightSensorRunes = slug lightSensorRunes :=
  ⟨rfl, slug_deterministic_idempotent.1 lightSensorRunes lightSensorRunes rfl⟩

/-! ## C1 — download retry backoff -/

/-- C1 counterexample: with two failing attempts and a successful third,
`downloadImage` succeeds but the total backoff slept is
`2 + 4 = 6` time-units, not the claimed `1 + 2 = 3`: the code sleeps
`1 << attempt` seconds before attempt `attempt+1`, so the backoff starts
at 2, not 1. -/
theorem downloadImage_backoff_counterexample :
    (downloadImage failTwiceOutcomes none).2 = 6 ∧
    exOk (downloadImage failTwiceOutcomes none).1 = true ∧
    (downloadImage failTwiceOutcomes none).2 ≠ 1 + 2 := by
  refine ⟨rfl, rfl, by decide⟩

/-- C1 amended: `Process` downloads with up to 3 attempts, sleeping
`2^attempt` time-units before retry `attempt` (2 before attempt 2, 4
before attempt 3); a download that fails twice and succeeds on the third
attempt returns the successful lux value after a total backoff wait of
`2 + 4 = 6` time-units. -/
theorem downloadImage_backoff (outcomes : ℕ → Option GoImage) (img : GoImage) (v : ℤ)
    (h0 : outcomes 0 = none) (h1 : outcomes 1 = none) (h2 : outcomes 2 = some img)
    (hv : calcLux img = .ok v) :
    downloadImage outcomes none = (.ok img, 6) ∧ processGo outcomes none = .ok v := by
  have hd : downloadImage outcomes none = (.ok img, 6) := by
    unfold downloadImage maxRetries
    unfold downloadFrom
    rw [h0]
    unfold downloadFrom
    rw [h1]
    unfold downloadFrom
    rw [h2]
    norm_num
  refine ⟨hd, ?_⟩
  unfold processGo
  rw [hd]
  simp only
  rw [hv]

/-- C1 witness: the amended theorem at the concrete fail-fail-succeed
oracle delivering the black 1×1 image. -/
theorem downloadImage_backoff_witness :
    failTwiceOutcomes 0 = none ∧ failTwiceOutcomes 1 = none ∧
    failTwiceOutcomes 2 = some img1x1Black ∧ calcLux img1x1Black = .ok 0 ∧
    downloadImage failTwiceOutcomes none = (.ok img1x1Black, 6) ∧
    processGo failTwiceOutcomes none = .ok 0 := by
  have hb : calcLux img1x1Black = .ok 0 :=
    calcLux_of_black img1x1Black (by decide) (fun _ _ => ⟨rfl, rfl, rfl⟩)
  have h := downloadImage_backoff failTwiceOutcomes img1x1Black 0 rfl rfl rfl hb
  exact ⟨rfl, rfl, rfl, hb, h.1, h.2⟩

/-! ## C2 — discovery published once until a birth event -/

/-- C2: with auto-discovery enabled, `needToPublishDiscovery` starts true
at construction; a `PublishLux` call clears it exactly when the state
publish succeeds, discovery was enabled and pending, and the discovery
publish succeeds; the birth callback sets it exactly on payload
`"online"`; and 5 consecutive successful `PublishLux` calls with no birth
event hand exactly 1 discovery message and 5 state messages to the
client. -/
theorem discovery_once_until_birth :
    (∀ e : Bool, (initPubState e).needToPublishDiscovery = true) ∧
    (∀ (s : PubState) (v : ℤ) (r₁ r₂ : Except GoErr Unit),
      (publishLuxGo s v r₁ r₂).1.needToPublishDiscovery =
        (s.needToPublishDiscovery && !(exOk r₁ && s.autoDiscoveryEnabled && exOk r₂))) ∧
    (∀ (s : PubState) (p : String),
      (onBirth s p).needToPublishDiscovery = (decide (p = "online") || s.needToPublishDiscovery)) ∧
    ((runPub (initPubState true)
        (List.replicate 5 (.lux 7 (.ok ()) (.ok ())))).2.countP PubMsg.isDiscovery = 1 ∧
      (runPub (initPubState true)
        (List.replicate 5 (.lux 7 (.ok ()) (.ok ())))).2.countP PubMsg.isState = 5) := by
  refine ⟨fun _ => rfl, ?_, ?_, by decide, by decide⟩
  · intro s v r₁ r₂
    rcases s with ⟨pending, enabled⟩
    cases r₁ <;> cases r₂ <;> cases pending <;> cases enabled <;> rfl
  · intro s p
    unfold onBirth
    split_ifs with h <;> simp [h]

/-! ## C4 — publish failure leaves the flag unchanged -/

/-- C4: whenever `PublishLux` or `PublishDiscovery` returns an error, the
`needToPublishDiscovery` flag is exactly what it was before the call; a
failed state publish surfaces as a state `PublishError` and a failed
discovery publish (with discovery enabled and pending) as a discovery
`PublishError`; and a `waitForPublish` succeeds exactly when the token
completes before the 10-unit timeout, with no transport error, and no
earlier cancellation. -/
theorem publish_error_flag_atomicity :
    (∀ (s : PubState) (v : ℤ) (r₁ r₂ : Except GoErr Unit),
      (publishLuxGo s v r₁ r₂).2.2.isSome = true →
        (publishLuxGo s v r₁ r₂).1.needToPublishDiscovery = s.needToPublishDiscovery) ∧
    (∀ (s : PubState) (r : Except GoErr Unit),
      (publishDiscoveryGo s r).2.2.isSome = true →
        (publishDiscoveryGo s r).1.needToPublishDiscovery = s.needToPublishDiscovery) ∧
    (∀ (s : PubState) (v : ℤ) (e : GoErr) (r₂ : Except GoErr Unit),
      (publishLuxGo s v (.error e) r₂).2.2 = some (.statePublishFailed e)) ∧
    (∀ (s : PubState) (e : GoErr),
      s.autoDiscoveryEnabled = true → s.needToPublishDiscovery = true →
        (publishDiscoveryGo s (.error e)).2.2 = some (.discoveryPublishFailed e)) ∧
    (∀ (ctxDoneAt : Option ℕ) (tok : Token),
      exOk (waitForPublish ctxDoneAt tok).1 = true ↔
        (tok.tokErr = none ∧ evTime tok.doneAt < (publishTimeout : ℕ∞) ∧
          ¬ evTime ctxDoneAt ≤ min (publishTimeout : ℕ∞) (evTime tok.doneAt))) := by
  refine ⟨?_, ?_, ?_, ?_, ?_⟩
  · intro s v r₁ r₂ h
    rcases s with ⟨pending, enabled⟩
    cases r₁ <;> cases r₂ <;> cases pending <;> cases enabled <;>
      first
        | rfl
        | (exact absurd h (by simp [publishLuxGo, publishDiscoveryGo]))
  · intro s r h
    rcases s with ⟨pending, enabled⟩
    cases r <;> cases pending <;> cases enabled <;>
      first
        | rfl
        | (exact absurd h (by simp [publishDiscoveryGo]))
  · intro s v e r₂
    rfl
  · intro s e he hp
    rcases s with ⟨pending, enabled⟩
    simp only at he hp
    rw [he, hp]
    rfl
  · intro ctxDoneAt tok
    rcases tok with ⟨doneAt, tokErr⟩
    unfold waitForPublish
    split_ifs with h1 h2
    · constructor
      · intro h
        exact (Bool.false_ne_true h).elim
      · rintro ⟨-, -, hctx⟩
        exact (hctx h1).elim
    · constructor
      · intro h
        exact (Bool.false_ne_true h).elim
      · rintro ⟨-, hlt, -⟩
        exact ((not_le.mpr hlt) h2).elim
    · cases tokErr with
      | some e =>
        constructor
        · intro h
          exact (Bool.false_ne_true h).elim
        · rintro ⟨h, -, -⟩
          exact (Option.some_ne_none e h).elim
      | none =>
        exact ⟨fun _ => ⟨rfl, not_le.mp h2, h1⟩, fun _ => rfl⟩

/-- C4 witness: a failed discovery publish after a successful state
publish leaves the initially-pending flag pending. -/
theorem publish_error_flag_atomicity_witness :
    (publishLuxGo (initPubState true) 7 (.ok ()) (.error .publishTimedOut)).2.2.isSome = true ∧
    (publishLuxGo (initPubState true) 7 (.ok ()) (.error .publishTimedOut)).1.needToPublishDiscovery
      = (initPubState true).needToPublishDiscovery :=
  ⟨by decide,
    publish_error_flag_atomicity.1 (initPubState true) 7 (.ok ()) (.error .publishTimedOut)
      (by decide)⟩

/-! ## C9 — Disconnect is not bounded by the publish timeout -/

/-- C9 counterexample: `Disconnect` waits on the offline-publish token
with a bare `token.Wait()` — for a token that never completes the wait
never returns and `client.Disconnect(250)` is never reached, so the wait
is not bounded by the 10-time-unit publish timeout. -/
theorem disconnect_unbounded_counterexample :
    (goDisconnect "darkdetector/light_sensor/availability" ⟨none, none⟩).waitedUntil = ⊤ ∧
    (goDisconnect "darkdetector/light_sensor/availability" ⟨none, none⟩).disconnectCalled = false ∧
    ¬ (goDisconnect "darkdetector/light_sensor/availability" ⟨none, none⟩).waitedUntil
        ≤ (publishTimeout : ℕ∞) := by
  refine ⟨rfl, rfl, ?_⟩
  rw [show (goDisconnect "darkdetector/light_sensor/availability" ⟨none, none⟩).waitedUntil
      = ⊤ from rfl]
  simp [publishTimeout]

/-- C9 amended: `Disconnect` performs a best-effort retained `"offline"`
publish to the availability topic, waits for the token and then closes
the session, but the wait is the bare token wait: it returns exactly when
the token completes and blocks indefinitely otherwise — unlike
`waitForPublish`, whose select always fires within the fixed
10-time-unit publish timeout. -/
theorem disconnect_best_effort_unbounded :
    (∀ (topic : String) (tok : Token),
      (goDisconnect topic tok).publishTopic = topic ∧
      (goDisconnect topic tok).publishPayload = "offline" ∧
      (goDisconnect topic tok).publishRetained = true ∧
      (goDisconnect topic tok).waitedUntil = evTime tok.doneAt ∧
      (goDisconnect topic tok).disconnectCalled = tok.doneAt.isSome) ∧
    (∀ (ctxDoneAt : Option ℕ) (tok : Token),
      (waitForPublish ctxDoneAt tok).2 ≤ publishTimeout) := by
  refine ⟨fun topic tok => ⟨rfl, rfl, rfl, rfl, rfl⟩, ?_⟩
  intro ctxDoneAt tok
  unfold waitForPublish
  split_ifs with h1 h2
  · cases ctxDoneAt with
    | none => simp [publishTimeout]
    | some c =>
      simp only [Option.getD_some]
      have : (c : ℕ∞) ≤ (publishTimeout : ℕ∞) := le_trans h1 (min_le_left _ _)
      exact_mod_cast this
  · exact le_refl _
  · cases h : tok.doneAt with
    | none =>
      rw [h] at h2
      exact absurd (by simp [evTime] : (publishTimeout : ℕ∞) ≤ evTime none) h2
    | some t =>
      rw [h] at h2
      simp only [h, Option.getD_some]
      have := not_le.mp h2
      simp only [evTime] at this
      exact_mod_cast this.le

/-! ## C3 — crop clamping -/

/-- An intersection with `s` is inside `s` (vacuously when empty) and has
non-negative width and height. -/
theorem intersect_in_bounds (r s : Rectangle) :
    ((r.intersect s).inB s = true) ∧
    0 ≤ (r.intersect s).dx ∧ 0 ≤ (r.intersect s).dy := by
  unfold Rectangle.intersect
  split_ifs with ht
  · simp [Rectangle.inB, Rectangle.emptyB, Rectangle.dx, Rectangle.dy]
  · simp only [Rectangle.emptyB, Bool.or_eq_true, decide_eq_true_eq, not_or, not_le] at ht
    refine ⟨?_, sub_nonneg.mpr ht.1.le, sub_nonneg.mpr ht.2.le⟩
    have h2 : s.minX ≤ max r.minX s.minX := le_max_right _ _
    have h3 : min r.maxX s.maxX ≤ s.maxX := min_le_right _ _
    have h4 : s.minY ≤ max r.minY s.minY := le_max_right _ _
    have h5 : min r.maxY s.maxY ≤ s.maxY := min_le_right _ _
    simp [Rectangle.inB, h2, h3, h4, h5]

/-- A clamped crop rectangle is inside the image bounds (vacuously when
empty) and has non-negative width and height. -/
theorem clampCrop_in_bounds (b : Rectangle) (x y w h : ℤ) :
    (clampCrop b x y w h).inB b = true ∧
    0 ≤ (clampCrop b x y w h).dx ∧ 0 ≤ (clampCrop b x y w h).dy := by
  unfold clampCrop
  exact intersect_in_bounds _ b

/-- C3 counterexample: on a 0..200 × 0..200 image, the 2-element crop
`{300, 300}` (defaulting to a 100×100 region) produces the empty zero
rectangle, which does not intersect the source image bounds — the
clamping `max`/`min` arithmetic does not pull an origin beyond `Max`
back inside, and `SubImage` then intersects to the empty rectangle. -/
theorem crop_clamp_counterexample :
    cropRect bounds200 [300, 300] = .ok ⟨0, 0, 0, 0⟩ ∧
    Rectangle.overlapsB ⟨0, 0, 0, 0⟩ bounds200 = false ∧
    (⟨0, 0, 0, 0⟩ : Rectangle).emptyB = true := by decide

/-- C3 amended: a 2-element crop `{x, y}` defaults width and height to
the constants 100×100; every crop rectangle `cropImage` produces is
contained in the image bounds (in Go's sense, which holds vacuously for
the empty rectangle) with never-negative width and height, but it can be
empty — and hence fail to intersect the source bounds — when the crop
origin lies outside them; for image bounds 0..200 × 0..200 and crop
`{180, 180, 100, 100}` the region is exactly 180..200 × 180..200. -/
theorem cropRect_clamped (b : Rectangle) (crop : List ℤ) (r : Rectangle)
    (hok : cropRect b crop = .ok r) :
    (r.inB b = true ∧ 0 ≤ r.dx ∧ 0 ≤ r.dy) ∧
    (∀ x y : ℤ, cropRect b [x, y] = cropRect b [x, y, cropWidth, cropHeight]) ∧
    cropRect bounds200 [180, 180, 100, 100] = .ok ⟨180, 180, 200, 200⟩ := by
  refine ⟨?_, fun x y => rfl, by decide⟩
  unfold cropRect at hok
  by_cases he : b.emptyB = true
  · rw [if_pos he] at hok
    exact absurd hok (by simp)
  · rw [if_neg he] at hok
    rcases crop with _ | ⟨x, _ | ⟨y, _ | ⟨w, _ | ⟨h4, _ | ⟨z, tl⟩⟩⟩⟩⟩
    · exact absurd hok (by simp)
    · exact absurd hok (by simp)
    · injection hok with hr
      rw [← hr]
      exact clampCrop_in_bounds b x y cropWidth cropHeight
    · exact absurd hok (by simp)
    · injection hok with hr
      rw [← hr]
      exact clampCrop_in_bounds b x y w h4
    · exact absurd hok (by simp)

/-- C3 witness: the amended theorem at the spec's concrete example. -/
theorem cropRect_clamped_witness :
    cropRect bounds200 [180, 180, 100, 100] = .ok ⟨180, 180, 200, 200⟩ ∧
    ((⟨180, 180, 200, 200⟩ : Rectangle).inB bounds200 = true ∧
      0 ≤ (⟨180, 180, 200, 200⟩ : Rectangle).dx ∧
      0 ≤ (⟨180, 180, 200, 200⟩ : Rectangle).dy) :=
  ⟨by decide,
    (cropRect_clamped bounds200 [180, 180, 100, 100] ⟨180, 180, 200, 200⟩ (by decide)).1⟩

/-! ## C10 — crop lists of invalid length -/

/-- For a crop list whose length is neither 2 nor 4, `cropRect` always
fails: with the empty-image error when the image is empty, and with the
invalid-crop-dimensions error otherwise. -/
theorem cropRect_error_of_badlen (b : Rectangle) (crop : List ℤ)
    (h2 : crop.length ≠ 2) (h4 : crop.length ≠ 4) :
    cropRect b crop = .error .noPixelsToCrop ∨ cropRect b crop = .error .invalidCropDims := by
  unfold cropRect
  by_cases he : b.emptyB = true
  · rw [if_pos he]
    exact Or.inl rfl
  · rw [if_neg he]
    rcases crop with _ | ⟨x, _ | ⟨y, _ | ⟨w, _ | ⟨h4', _ | ⟨z, tl⟩⟩⟩⟩⟩
    · exact Or.inr rfl
    · exact Or.inr rfl
    · exact absurd rfl h2
    · exact Or.inr rfl
    · exact absurd rfl h4
    · exact Or.inr rfl

/-- With a bad-length crop configured, no iteration of the download loop
can return a successfully cropped image. -/
theorem downloadFrom_never_ok_of_badlen (outcomes : ℕ → Option GoImage) (crop : List ℤ)
    (h2 : crop.length ≠ 2) (h4 : crop.length ≠ 4) :
    ∀ fuel attempt waited,
      exOk (downloadFrom outcomes (some crop) attempt fuel waited).1 = false := by
  intro fuel
  induction fuel with
  | zero => intro attempt waited; rfl
  | succ n ih =>
    intro attempt waited
    unfold downloadFrom
    cases houtcome : outcomes attempt with
    | none =>
      simp only [houtcome]
      exact ih _ _
    | some img =>
      simp only [houtcome]
      rcases cropRect_error_of_badlen img.bounds crop h2 h4 with he | he <;>
        simp [cropImage, he, exOk, Except.map]

/-- C10: a configured crop list whose length is neither 2 nor 4 (which
`getImageCrop` happily produces, e.g. from the value `"1,2,3"`) makes
`cropImage` fail with the invalid-crop-dimensions error on every
non-empty image (on an empty image the empty-image check fires first),
and every `Process` call with such a crop fails — it never returns a lux
value. -/
theorem cropImage_badlen (b : Rectangle) (crop : List ℤ)
    (h2 : crop.length ≠ 2) (h4 : crop.length ≠ 4) :
    (b.emptyB = false → cropRect b crop = .error .invalidCropDims) ∧
    (∀ outcomes : ℕ → Option GoImage, exOk (processGo outcomes (some crop)) = false) ∧
    getImageCrop cropValue123 = .ok (some [1, 2, 3]) := by
  refine ⟨?_, ?_, by decide⟩
  · intro he
    rcases cropRect_error_of_badlen b crop h2 h4 with h | h
    · unfold cropRect at h
      rw [if_neg (by simp [he])] at h
      rcases crop with _ | ⟨x, _ | ⟨y, _ | ⟨w, _ | ⟨h4', _ | ⟨z, tl⟩⟩⟩⟩⟩ <;>
        exact absurd h (by simp)
    · exact h
  · intro outcomes
    have hd : exOk (downloadImage outcomes (some crop)).1 = false :=
      downloadFrom_never_ok_of_badlen outcomes crop h2 h4 maxRetries 0 0
    unfold processGo
    cases hres : (downloadImage outcomes (some crop)).1 with
    | error e => simp [exOk]
    | ok v =>
      rw [hres] at hd
      exact absurd hd (by simp [exOk])

/-- C10 counterexample: on an image with empty bounds, a 3-element crop
fails with the empty-image error, not the invalid-crop-dimensions error:
`cropImage` checks the image before the crop list. -/
theorem cropImage_badlen_counterexample :
    cropImage emptyImg [1, 2, 3] = .error .noPixelsToCrop ∧
    GoErr.noPixelsToCrop ≠ GoErr.invalidCropDims ∧
    ([1, 2, 3] : List ℤ).length ≠ 2 ∧ ([1, 2, 3] : List ℤ).length ≠ 4 :=
  ⟨rfl, by decide, by decide, by decide⟩

/-- C10 witness: the amended theorem at the 3-element crop the loader
accepts, on the 200×200 bounds and on a download that succeeds
immediately. -/
theorem cropImage_badlen_witness :
    (([1, 2, 3] : List ℤ).length ≠ 2 ∧ ([1, 2, 3] : List ℤ).length ≠ 4) ∧
    (bounds200.emptyB = false → cropRect bounds200 [1, 2, 3] = .error .invalidCropDims) ∧
    exOk (processGo emptyImgOutcomes (some [1, 2, 3])) = false :=
  ⟨⟨by decide, by decide⟩,
    (cropImage_badlen bounds200 [1, 2, 3] (by decide) (by decide)).1,
    (cropImage_badlen bounds200 [1, 2, 3] (by decide) (by decide)).2.1 emptyImgOutcomes⟩


/-! ## C7 — black and white images -/

/-- C7: for a fully black image (all channel samples 0) the computed lux
is 0; for a fully white image (all channel samples at full 16-bit scale)
the computed lux is the scale constant applied to linear value 1.0,
i.e. `int(1.0 * 9500) = 9500`. -/
theorem calcLux_black_white :
    (∀ img : GoImage, img.bounds.emptyB = false →
      (∀ x y : ℤ, (img.atPix x y).r = 0 ∧ (img.atPix x y).g = 0 ∧ (img.atPix x y).b = 0) →
      calcLux img = .ok 0) ∧
    (∀ img : GoImage, img.bounds.emptyB = false →
      (∀ x y : ℤ,
        (img.atPix x y).r = 65535 ∧ (img.atPix x y).g = 65535 ∧ (img.atPix x y).b = 65535) →
      calcLux img = .ok 9500) :=
  ⟨calcLux_of_black, calcLux_of_white⟩

/-- C7 witness: the 1×1 black and white images. -/
theorem calcLux_black_white_witness :
    (img1x1Black.bounds.emptyB = false ∧ calcLux img1x1Black = .ok 0) ∧
    (img1x1White.bounds.emptyB = false ∧ calcLux img1x1White = .ok 9500) :=
  ⟨⟨by decide, calcLux_black_white.1 img1x1Black (by decide) (fun _ _ => ⟨rfl, rfl, rfl⟩)⟩,
    ⟨by decide, calcLux_black_white.2 img1x1White (by decide) (fun _ _ => ⟨rfl, rfl, rfl⟩)⟩⟩

/-! ## C5 — the empty-image error -/

/-- C5: on canonical image bounds (`Min ≤ Max`, as all Go images have),
`calcLux` fails exactly when the pixel region has zero area, the failure
is always the empty-image error, every non-empty region yields an
integer lux without error, and the failure is non-retryable and surfaces
immediately: a first-attempt download of an empty image makes `Process`
fail with the wrapped empty-image error after zero backoff. -/
theorem calcLux_emptyImage_error (img : GoImage)
    (hminX : img.bounds.minX ≤ img.bounds.maxX) (hminY : img.bounds.minY ≤ img.bounds.maxY) :
    (exOk (calcLux img) = false ↔ img.bounds.dx * img.bounds.dy = 0) ∧
    (exOk (calcLux img) = false → calcLux img = .error .noPixelsToProcess) ∧
    (img.bounds.emptyB = false → ∃ n : ℤ, calcLux img = .ok n) ∧
    (∀ outcomes : ℕ → Option GoImage, outcomes 0 = some img → img.bounds.emptyB = true →
      processGo outcomes none = .error (.processCalc .noPixelsToProcess) ∧
      (downloadImage outcomes none).2 = 0) := by
  have harea : img.bounds.emptyB = true ↔ img.bounds.dx * img.bounds.dy = 0 := by
    unfold Rectangle.emptyB Rectangle.dx Rectangle.dy
    simp only [Bool.or_eq_true, decide_eq_true_eq]
    constructor
    · intro h
      rcases h with h | h
      · rw [show img.bounds.maxX - img.bounds.minX = 0 by omega, zero_mul]
      · rw [show img.bounds.maxY - img.bounds.minY = 0 by omega, mul_zero]
    · intro h
      rcases mul_eq_zero.mp h with h | h
      · left; omega
      · right; omega
  have hcalcErr : img.bounds.emptyB = true → calcLux img = .error .noPixelsToProcess := by
    intro hb
    unfold calcLux
    rw [if_pos hb]
  have hcalcOk : img.bounds.emptyB = false →
      calcLux img = .ok (scaleLux (luxSum img) (img.bounds.dx * img.bounds.dy)) := by
    intro hb
    unfold calcLux
    rw [if_neg (by simp [hb])]
  refine ⟨?_, ?_, ?_, ?_⟩
  · by_cases hb : img.bounds.emptyB = true
    · rw [hcalcErr hb]
      simp only [exOk]
      exact ⟨fun _ => harea.mp hb, fun _ => trivial⟩
    · have hb' : img.bounds.emptyB = false := by
        revert hb
        cases img.bounds.emptyB <;> simp
      rw [hcalcOk hb']
      constructor
      · intro h
        exact absurd h (by simp [exOk])
      · intro hc
        have := harea.mpr hc
        rw [hb'] at this
        exact absurd this (by simp)
  · intro h
    by_cases hb : img.bounds.emptyB = true
    · exact hcalcErr hb
    · have hb' : img.bounds.emptyB = false := by
        revert hb
        cases img.bounds.emptyB <;> simp
      rw [hcalcOk hb'] at h
      exact absurd h (by simp [exOk])
  · intro hb
    exact ⟨_, hcalcOk hb⟩
  · intro outcomes h0 hbe
    have hd : downloadImage outcomes none = (.ok img, 0) := by
      unfold downloadImage maxRetries downloadFrom
      rw [h0]
      norm_num
    constructor
    · unfold processGo
      rw [hd]
      simp only
      rw [hcalcErr hbe]
    · rw [hd]

/-- C5 witness: the empty image and the 1×1 black image, and a download
whose first attempt yields the empty image. -/
theorem calcLux_emptyImage_error_witness :
    (exOk (calcLux emptyImg) = false ↔ emptyImg.bounds.dx * emptyImg.bounds.dy = 0) ∧
    (∃ n : ℤ, calcLux img1x1Black = .ok n) ∧
    (processGo emptyImgOutcomes none = .error (.processCalc .noPixelsToProcess) ∧
      (downloadImage emptyImgOutcomes none).2 = 0) :=
  ⟨(calcLux_emptyImage_error emptyImg (by decide) (by decide)).1,
    (calcLux_emptyImage_error img1x1Black (by decide) (by decide)).2.2.1 (by decide),
    (calcLux_emptyImage_error emptyImg (by decide) (by decide)).2.2.2 emptyImgOutcomes rfl
      (by decide)⟩

/-! ## C6 — the RGBA lookup-table path refines the generic path -/

/-- The lookup table applied to an 8-bit value equals the generic
conversion applied to the 16-bit sample `v * 0x101` of the same value:
`(v * 257) / 65535 = v / 255`. -/
theorem srgbToLinear_sample (v : ℕ) :
    srgbToLinear (((v * 257 : ℕ) : ℝ) / scale) = srgbToLinearLUT v := by
  unfold srgbToLinearLUT scale
  congr 1
  push_cast
  field_simp
  ring

/-- The bounds of the `image.Image` view of an RGBA image are its
`Rect`. -/
theorem toGoImage_bounds (img : RGBAImage) : img.toGoImage.bounds = img.rect := rfl

/-- `At` of the `image.Image` view of an RGBA image, inside the bounds:
the `Pix` bytes at the stride offset, each expanded to 16 bits. -/
theorem toGoImage_atPix (img : RGBAImage) (x y : ℤ)
    (h : img.rect.minX ≤ x ∧ x < img.rect.maxX ∧ img.rect.minY ≤ y ∧ y < img.rect.maxY) :
    img.toGoImage.atPix x y =
      ⟨img.pix ((y - img.rect.minY) * img.stride + (x - img.rect.minX) * 4) * 257,
        img.pix ((y - img.rect.minY) * img.stride + (x - img.rect.minX) * 4 + 1) * 257,
        img.pix ((y - img.rect.minY) * img.stride + (x - img.rect.minX) * 4 + 2) * 257,
        img.pix ((y - img.rect.minY) * img.stride + (x - img.rect.minX) * 4 + 3) * 257⟩ := by
  unfold RGBAImage.toGoImage
  dsimp only
  rw [if_pos h]

/-- C6: on every RGBA image, the optimized `calcLuxRGBA` (256-entry
lookup table over the `Pix` bytes) computes exactly the brightness sum of
the generic per-pixel path applied to the same image through its `At`
accessor (16-bit samples and `srgbToLinear`), and hence — whenever the
image is non-empty, which is when `calcLux` dispatches to it — returns
the same integer lux as the generic `calcLux` path. -/
theorem calcLuxRGBA_eq_generic (img : RGBAImage) :
    calcLuxRGBA img img.rect.dx img.rect.dy =
      .ok (scaleLux (luxSum img.toGoImage) (img.rect.dx * img.rect.dy)) ∧
    (img.rect.emptyB = false →
      calcLuxRGBA img img.rect.dx img.rect.dy = calcLux img.toGoImage) := by
  have hsum : (∑ y ∈ Finset.range img.rect.dy.toNat, ∑ x ∈ Finset.range img.rect.dx.toNat,
      (srgbToLinearLUT (img.pix ((y : ℤ) * img.stride + (x : ℤ) * 4)) * rWeight +
        srgbToLinearLUT (img.pix ((y : ℤ) * img.stride + (x : ℤ) * 4 + 1)) * gWeight +
        srgbToLinearLUT (img.pix ((y : ℤ) * img.stride + (x : ℤ) * 4 + 2)) * bWeight)) =
      luxSum img.toGoImage := by
    unfold luxSum
    rw [toGoImage_bounds]
    refine Finset.sum_congr rfl fun y hy => Finset.sum_congr rfl fun x hx => ?_
    have hx' := Finset.mem_range.mp hx
    have hy' := Finset.mem_range.mp hy
    unfold Rectangle.dx at hx'
    unfold Rectangle.dy at hy'
    rw [toGoImage_atPix img ((x : ℤ) + img.rect.minX) ((y : ℤ) + img.rect.minY)
      ⟨by omega, by omega, by omega, by omega⟩]
    unfold pixelBrightness
    dsimp only
    simp only [add_sub_cancel_right, srgbToLinear_sample]
  constructor
  · unfold calcLuxRGBA
    rw [hsum]
  · intro hne
    unfold calcLux
    rw [if_neg (by simp [RGBAImage.toGoImage, hne])]
    unfold calcLuxRGBA
    rw [hsum]
    simp [RGBAImage.toGoImage]

/-- C6 witness: the non-emptiness branch at the 1×1 RGBA image. -/
theorem calcLuxRGBA_eq_generic_witness :
    rgba1.rect.emptyB = false ∧
    calcLuxRGBA rgba1 rgba1.rect.dx rgba1.rect.dy = calcLux rgba1.toGoImage :=
  ⟨by decide, (calcLuxRGBA_eq_generic rgba1).2 (by decide)⟩

end DarkDetector
